import Mathlib

/-!
Shallow embedding of the id3-validator profile-verification service
(`src/profiles/profiles.service.ts`) together with proofs about the
claims of its design specification.

The service's external collaborators (KILT SDK chain queries, HTTP fetch,
configuration source) are represented as oracle functions collected in an
`Env` record; the service's own logic (payload validation, credential
verification checks, endpoint policy, primary matching, best-effort
collection verification, and profile projection) is translated function
by function from the TypeScript source.  The service method `getProfile`
wraps the whole workflow in a `try/catch` whose handler only logs and
falls through, so the method resolves with `undefined` on failure; we
model the `try` body as `getProfileAttempt : Except WorkflowError Profile`
and the method itself as `getProfile := (getProfileAttempt _ _).toOption`.
-/

namespace Id3

/-! ### JavaScript string primitives

`String.prototype.split(',')` and `String.prototype.replace(sub, repl)`
(which replaces only the first occurrence of a string pattern) are
modelled by structural recursion over character lists so that they
evaluate by kernel reduction. -/

/-- Splits a character list at every comma; `[]` yields `[[]]`, matching
JavaScript's `''.split(',') === ['']`. -/
def splitCommaList : List Char → List (List Char)
  | [] => [[]]
  | c :: rest =>
    let r := splitCommaList rest
    if c = ',' then [] :: r
    else
      match r with
      | [] => [[c]]
      | g :: gs => (c :: g) :: gs

/-- Model of JavaScript `s.split(',')`. -/
def jsSplitComma (s : String) : List String :=
  (splitCommaList s.data).map (fun cs => String.mk cs)

/-- Drops `pat` from the front of `s` if `pat` is a leading segment of `s`,
returning the remainder; `none` otherwise. -/
def stripPre : List Char → List Char → Option (List Char)
  | [], s => some s
  | _ :: _, [] => none
  | p :: ps, c :: cs => if p = c then stripPre ps cs else none

/-- Replaces the first occurrence of `pat` by `repl`, as JavaScript
`String.prototype.replace` does for a string pattern. -/
def replaceFirstList (pat repl : List Char) : List Char → List Char
  | [] =>
    match stripPre pat [] with
    | some rest => repl ++ rest
    | none => []
  | c :: cs =>
    match stripPre pat (c :: cs) with
    | some rest => repl ++ rest
    | none => c :: replaceFirstList pat repl cs

/-- Model of JavaScript `s.replace(pat, repl)` for a string pattern. -/
def jsReplaceFirst (s pat repl : String) : String :=
  String.mk (replaceFirstList pat.data repl.data s.data)

/-! ### JSON payload model (the fetch layer)

`fetchCredentials` receives an arbitrary JSON body and validates it with
the duck-typed guard `isPublishedCollection` before casting, so this part
of the code is embedded at the level of untyped JSON values. -/

/-- Untyped JSON value, the type of a parsed response body.  JavaScript's
`undefined` (absent member) is conflated with `null`, which has the same
truthiness. -/
inductive Json where
  | null
  | bool (b : Bool)
  | num (n : Int)
  | str (s : String)
  | arr (items : List Json)
  | obj (fields : List (String × Json))

/-- JavaScript truthiness of a JSON value. -/
def Json.truthy : Json → Bool
  | .null => false
  | .bool b => b
  | .num n => n != 0
  | .str s => !s.isEmpty
  | .arr _ => true
  | .obj _ => true

/-- JavaScript member access `j[k]`: field lookup on an object, `null`
(for `undefined`) on a missing field or a non-object. -/
def Json.getField : Json → String → Json
  | .obj fields, k => ((fields.find? (fun f => f.1 == k)).map Prod.snd).getD .null
  | _, _ => .null

/-- Tests whether a JSON value is a string. -/
def Json.isStr : Json → Bool
  | .str _ => true
  | _ => false

/-- Tests whether a JSON value is an object. -/
def Json.isObj : Json → Bool
  | .obj _ => true
  | _ => false

/-- Tests whether a JSON value is an array. -/
def Json.isArr : Json → Bool
  | .arr _ => true
  | _ => false

/-- Modelled from the spec: `Kilt.Credential.isICredential` belongs to the
external SDK and its source is not part of this repository.  Per the
spec's data model, a published credential envelope must carry a schema
identifier (`claim.cTypeHash`), a claim mapping (`claim.contents`), a
subject (`claim.owner`) and proof material (`rootHash`, `claimHashes`). -/
def isICredential (j : Json) : Bool :=
  ((j.getField "claim").getField "cTypeHash").isStr
    && ((j.getField "claim").getField "contents").isObj
    && ((j.getField "claim").getField "owner").isStr
    && (j.getField "rootHash").isStr
    && (j.getField "claimHashes").isArr

/-- Line-by-line model of `ProfilesService.isPublishedCollection`
(profiles.service.ts lines 53-61): the payload must be an array, be
non-empty, and every item must be truthy, have a truthy `credential`
member, and that member must pass the SDK credential-shape check. -/
def isPublishedCollection : Json → Bool
  | .arr items =>
      !items.isEmpty
        && items.all (fun item =>
          item.truthy
            && (item.getField "credential").truthy
            && isICredential (item.getField "credential"))
  | _ => false

/-- Error outcomes of the credential fetch, named after the spec's
taxonomy: `upstream` models the throw on a non-success transport status,
`malformedData` the throw on a payload rejected by
`isPublishedCollection`. -/
inductive FetchError where
  | upstream (status : Nat)
  | malformedData
deriving DecidableEq, Repr

/-- Transport response consumed by `fetchCredentials`: the node-fetch
`ok` flag (2xx status), the numeric status, and the parsed JSON body. -/
structure FetchResponse where
  ok : Bool
  status : Nat
  body : Json

/-- Model of `ProfilesService.fetchCredentials` (lines 84-98): throws on
`!response.ok`, then throws unless the body passes
`isPublishedCollection`, and otherwise returns the body unchanged. -/
def fetchCredentials (response : FetchResponse) : Except FetchError Json :=
  if !response.ok then .error (.upstream response.status)
  else if !isPublishedCollection response.body then .error .malformedData
  else .ok response.body

/-! ### Typed credential model (post-validation layer)

Downstream of the fetch guard the code reads only
`credential.claim.cTypeHash`, `credential.claim.contents[key]` and
`credential.claim.owner`; the orchestrator is embedded over this typed
view, receiving the fetch collaborator's outcome through the `Env`. -/

/-- The claim part of a credential: schema identifier, claim-field
mapping (JS object, modelled as an association list), and subject. -/
structure Claim where
  cTypeHash : String
  contents : List (String × String)
  owner : String
deriving DecidableEq, Repr

/-- An ICredential as used by the service: only the claim is consulted. -/
structure Credential where
  claim : Claim
deriving DecidableEq, Repr

/-- A `KiltPublishedCredentialV1` envelope wrapping a credential. -/
structure CredentialV1 where
  credential : Credential
deriving DecidableEq, Repr

/-- Entry of the static `supportedPlatforms.json` registry: platform
name, schema identifier, claim-contents key and link template. -/
structure PlatformDesc where
  name : String
  cTypeHash : String
  contentsKey : String
  linkTemplate : String
deriving DecidableEq, Repr

/-- The output profile: a platform-name-to-URL mapping, modelled as an
association list preserving JS object insertion order. -/
structure Profile where
  links : List (String × String)
deriving DecidableEq, Repr

/-! ### CredentialVerifier -/

/-- Failure outcomes of `verifyCredential`, in the spec's taxonomy
ordering: schema resolution, authenticity, revocation, issuer trust,
subject binding. -/
inductive VerifyError where
  | unsupportedSchema
  | invalidSignature
  | revoked
  | untrustedIssuer
  | subjectMismatch
deriving DecidableEq, Repr

/-- Answers of the external trust-chain collaborator (KILT SDK):
`ctypeExists h` is whether `Kilt.CType.fetchFromChain` succeeds for the
schema hash `h`; `verifyResult c` is `none` when
`Kilt.Credential.verifyCredential` throws (inauthentic) and
`some (revoked, attester)` when it returns; `sameSubject` is
`Kilt.Did.isSameSubject`. -/
structure TrustOracle where
  ctypeExists : String → Bool
  verifyResult : Credential → Option (Bool × String)
  sameSubject : String → String → Bool

/-- Line-by-line model of `ProfilesService.verifyCredential`
(lines 108-141): resolve the on-chain ctype, delegate
authenticity/revocation to the SDK, check the attester against the
trusted allow-list by exact membership, check subject binding, and
return the input envelope unchanged on success. -/
def verifyCredential (oracle : TrustOracle) (credentialV1 : CredentialV1)
    (trustedAttesterUris : List String) (didUri : String) :
    Except VerifyError CredentialV1 :=
  let credential := credentialV1.credential
  if !oracle.ctypeExists credential.claim.cTypeHash then .error .unsupportedSchema
  else
    match oracle.verifyResult credential with
    | none => .error .invalidSignature
    | some (revoked, attester) =>
      if revoked then .error .revoked
      else if !trustedAttesterUris.contains attester then .error .untrustedIssuer
      else if !oracle.sameSubject credential.claim.owner didUri then .error .subjectMismatch
      else .ok credentialV1

/-- Model of `ProfilesService.verifySocialCredentials` (lines 150-176):
every envelope is verified independently, the results are joined with an
all-settled barrier, and only the fulfilled values (each of which is the
input envelope itself) are kept, in order. -/
def verifySocialCredentials (oracle : TrustOracle)
    (socialCredentials : List CredentialV1)
    (trustedAttesterUris : List String) (didUri : String) : List CredentialV1 :=
  socialCredentials.filterMap (fun credentialV1 =>
    (verifyCredential oracle credentialV1 trustedAttesterUris didUri).toOption)

/-! ### Profile projection -/

/-- Renders one link: the descriptor's template with `CONTENTS_VALUE`
replaced by the credential's claim value at the descriptor's contents
key.  A missing key renders the string "undefined", as JavaScript
stringifies `undefined` inside `String.prototype.replace`. -/
def renderLink (desc : PlatformDesc) (credential : Credential) : String :=
  jsReplaceFirst desc.linkTemplate "CONTENTS_VALUE"
    ((credential.claim.contents.lookup desc.contentsKey).getD "undefined")

/-- JS object property assignment `links[k] = v` on an insertion-ordered
record: an existing key keeps its position and gets the new value, a new
key is appended. -/
def setLink (links : List (String × String)) (key val : String) :
    List (String × String) :=
  if links.any (fun kv => kv.1 == key) then
    links.map (fun kv => if kv.1 == key then (key, val) else kv)
  else links ++ [(key, val)]

/-- One step of `extractProfile`'s forEach body (lines 186-190): look the
credential's schema hash up in the registry — destructuring the result
throws a TypeError (modelled as `none`) when no descriptor matches — and
assign the rendered link under the descriptor's platform name. -/
def extractStep (registry : List PlatformDesc) (links : List (String × String))
    (credentialV1 : CredentialV1) : Option (List (String × String)) :=
  match registry.find? (fun desc => credentialV1.credential.claim.cTypeHash == desc.cTypeHash) with
  | none => none
  | some desc => some (setLink links desc.name (renderLink desc credentialV1.credential))

/-- The forEach loop of `extractProfile` folded over the credential list
from an arbitrary starting record. -/
def extractFold (registry : List PlatformDesc) (credentialsV1 : List CredentialV1)
    (links : List (String × String)) : Option (List (String × String)) :=
  credentialsV1.foldlM (extractStep registry) links

/-- Model of `ProfilesService.extractProfile` (lines 183-193); `none`
models the uncaught TypeError thrown when a credential's schema hash has
no registry descriptor. -/
def extractProfile (registry : List PlatformDesc)
    (credentialsV1 : List CredentialV1) : Option Profile :=
  (extractFold registry credentialsV1 []).map Profile.mk

/-! ### Orchestrator (`getProfile`) -/

/-- A DID service-endpoint descriptor: a list of type tags and a list of
endpoint URIs. -/
structure Service where
  type : List String
  serviceEndpoint : List String
deriving DecidableEq, Repr

/-- A resolved DID document; `service` is optional as in the SDK type. -/
structure DidDocument where
  service : Option (List Service)
deriving DecidableEq, Repr

/-- Result of `Kilt.Did.resolve`: a document that is absent when the DID
has been deleted/deactivated. -/
structure ResolutionResult where
  document : Option DidDocument
deriving DecidableEq, Repr

/-- The service-endpoint type tag the orchestrator filters on. -/
def kiltPublishedCredentialCollectionV1Type : String :=
  "KiltPublishedCredentialCollectionV1"

/-- Error outcomes of the `getProfile` try body, one constructor per
`throw` site, named after the spec's taxonomy.  `registryCrash` and
`extractCrash` model the TypeErrors a failed destructuring of
`supportedPlatforms.find(...)` would raise (line 257 and line 187). -/
inductive WorkflowError where
  | invalidRequest
  | noTrustedAttesters
  | noSupportedPlatforms
  | unsupportedPlatform
  | didLookupFailed
  | emptyDidUri
  | didNotFound
  | didDeactivated
  | endpointNotFound
  | endpointConflict
  | fetchFailed (e : FetchError)
  | noMatch
  | registryCrash
  | extractCrash
deriving DecidableEq, Repr

/-- Request-scoped environment: the configuration value
`TRUSTED_ATTESTER_URIS` (its absence yields the default `""`), the
static registry bundled as `supportedPlatforms.json` (modelled from the
spec, the JSON file not being among the sources), and the answers of the
external collaborators: `getDidUriByWeb3Name` (error = its wrapped
throw), `Kilt.Did.resolve`, the credential fetch, and the trust chain. -/
structure Env where
  trustedAttesterUrisRaw : String
  supportedPlatforms : List PlatformDesc
  didUriFor : String → Except Unit String
  resolve : String → Option ResolutionResult
  fetch : String → Except FetchError (List CredentialV1)
  oracle : TrustOracle

/-- The query DTO of `getProfile`. -/
structure ProfileDto where
  web3Name : String
  username : String
  platformName : String
deriving DecidableEq, Repr

/-- The predicate of line 272: the credential's schema hash matches some
registry descriptor. -/
def supportedPred (registry : List PlatformDesc) (credentialV1 : CredentialV1) : Bool :=
  registry.any (fun desc => credentialV1.credential.claim.cTypeHash == desc.cTypeHash)

/-- The predicate of lines 259-262: schema hash equals the requested
platform's hash, the contents key is present, and its value equals the
requested username exactly. -/
def primaryPred (platformDesc : PlatformDesc) (username : String)
    (credentialV1 : CredentialV1) : Bool :=
  credentialV1.credential.claim.cTypeHash == platformDesc.cTypeHash
    && (credentialV1.credential.claim.contents.lookup platformDesc.contentsKey).isSome
    && (credentialV1.credential.claim.contents.lookup platformDesc.contentsKey
          == some username)

/-- Line-by-line model of the try body of `ProfilesService.getProfile`
(lines 200-295).  Note two facts carried over faithfully from the
source: the call `this.verifyCredential(matchingCredential, ...)` on
line 268 has no `await`, so its outcome never reaches the control flow
(`_primaryVerification` below is computed and discarded); and the final
`catch` that swallows every error is modelled separately in
`getProfile`. -/
def getProfileAttempt (env : Env) (dto : ProfileDto) : Except WorkflowError Profile :=
  if dto.web3Name.isEmpty || dto.username.isEmpty || dto.platformName.isEmpty then
    .error .invalidRequest
  else
    let trustedAttesterUris := jsSplitComma env.trustedAttesterUrisRaw
    if trustedAttesterUris.isEmpty then .error .noTrustedAttesters
    else if env.supportedPlatforms.isEmpty then .error .noSupportedPlatforms
    else if !env.supportedPlatforms.any (fun desc => dto.platformName == desc.name) then
      .error .unsupportedPlatform
    else
      match env.didUriFor dto.web3Name with
      | .error _ => .error .didLookupFailed
      | .ok didUri =>
        if didUri.isEmpty then .error .emptyDidUri
        else
          match env.resolve didUri with
          | none => .error .didNotFound
          | some resolutionResult =>
            match resolutionResult.document with
            | none => .error .didDeactivated
            | some document =>
              let credentialEndpoints := (document.service.getD []).filter
                (fun service => service.type.contains kiltPublishedCredentialCollectionV1Type)
              if credentialEndpoints.isEmpty then .error .endpointNotFound
              else if credentialEndpoints.length > 1 then .error .endpointConflict
              else
                let firstEndpoint := credentialEndpoints.headD ⟨[], []⟩
                match env.fetch (firstEndpoint.serviceEndpoint.headD "") with
                | .error e => .error (.fetchFailed e)
                | .ok credentials =>
                  match env.supportedPlatforms.find? (fun desc => desc.name == dto.platformName) with
                  | none => .error .registryCrash
                  | some platformDesc =>
                    match credentials.find? (primaryPred platformDesc dto.username) with
                    | none => .error .noMatch
                    | some matchingCredential =>
                      let _primaryVerification := verifyCredential env.oracle
                        matchingCredential trustedAttesterUris didUri
                      let socialCredentials := credentials.filter
                        (supportedPred env.supportedPlatforms)
                      let successfulVerifications := verifySocialCredentials env.oracle
                        socialCredentials trustedAttesterUris didUri
                      match extractProfile env.supportedPlatforms successfulVerifications with
                      | none => .error .extractCrash
                      | some profile => .ok profile

/-- Model of the service method `getProfile` as the caller observes it:
the catch block (lines 297-300) logs the error and returns nothing, so
a failed workflow resolves with `undefined` (`none`). -/
def getProfile (env : Env) (dto : ProfileDto) : Option Profile :=
  (getProfileAttempt env dto).toOption

end Id3

namespace Id3

/-! ### Concrete fixtures

Registry entries, credentials and environments used by counterexample
and witness theorems; the registry contents are modelled from the spec's
example scenario (the bundled `supportedPlatforms.json` is not among the
sources). -/

/-- Twitter registry descriptor, after the spec's example scenario. -/
def twitterDesc : PlatformDesc :=
  ⟨"twitter", "0xtwitterhash", "Twitter", "https://twitter.com/CONTENTS_VALUE"⟩

/-- GitHub registry descriptor, a second supported platform. -/
def githubDesc : PlatformDesc :=
  ⟨"github", "0xgithubhash", "GitHub", "https://github.com/CONTENTS_VALUE"⟩

/-- A published Twitter credential for a given username, owned by the
sample subject. -/
def twitterCred (u : String) : CredentialV1 :=
  ⟨⟨⟨"0xtwitterhash", [("Twitter", u)], "did:kilt:alice"⟩⟩⟩

/-- A published GitHub credential for a given username, owned by the
sample subject. -/
def githubCred (u : String) : CredentialV1 :=
  ⟨⟨⟨"0xgithubhash", [("GitHub", u)], "did:kilt:alice"⟩⟩⟩

/-- A trust-chain oracle that accepts every schema, finds every
credential authentic, unrevoked and issued by the sample attester, and
compares subjects by string equality. -/
def baseOracle : TrustOracle :=
  ⟨fun _ => true, fun _ => some (false, "did:kilt:attester"), fun a b => a == b⟩

/-- A service endpoint carrying the credential-publication type tag. -/
def sampleService : Service :=
  ⟨[kiltPublishedCredentialCollectionV1Type], ["https://ipfs.example/collection"]⟩

/-- A DID document exposing exactly one credential-publication endpoint. -/
def sampleDoc : DidDocument := ⟨some [sampleService]⟩

/-- A fully healthy environment: trusted attester configured, two
supported platforms, resolvable DID, one endpoint, one fetched Twitter
credential. -/
def baseEnv : Env where
  trustedAttesterUrisRaw := "did:kilt:attester"
  supportedPlatforms := [twitterDesc, githubDesc]
  didUriFor := fun _ => .ok "did:kilt:alice"
  resolve := fun _ => some ⟨some sampleDoc⟩
  fetch := fun _ => .ok [twitterCred "briefboards"]
  oracle := baseOracle

/-- The spec's example request. -/
def dtoTwitter : ProfileDto := ⟨"buitrago", "briefboards", "twitter"⟩

/-- Sanity check: the healthy environment yields the spec's example
profile. -/
theorem baseEnv_example_profile :
    getProfile baseEnv dtoTwitter =
      some ⟨[("twitter", "https://twitter.com/briefboards")]⟩ := by decide

end Id3

namespace Id3

/-- C1: the claim says a failed request propagates one of the error
kinds of the taxonomy to the caller, but the catch block of
`getProfile` (lines 297-300) only logs the error and falls through, so
the method resolves with `undefined` — neither a populated profile nor
an error reaches the caller.  At the concrete failing input below the
try body raises the invalid-request error, yet the method's observable
outcome is `none`. -/
theorem c1_failed_request_resolves_undefined :
    getProfileAttempt baseEnv ⟨"", "briefboards", "twitter"⟩ = .error .invalidRequest
    ∧ getProfile baseEnv ⟨"", "briefboards", "twitter"⟩ = none := ⟨rfl, rfl⟩

/-- Environment identical to `baseEnv` except that the configured
trusted-attester allow-list does not contain the attester that issued
the fetched credentials. -/
def envUntrusted : Env := { baseEnv with trustedAttesterUrisRaw := "did:kilt:someoneelse" }

/-- C2: the claim says a verification failure of the primary matched
envelope is fatal to the whole request, but line 268 invokes
`verifyCredential` on the matched credential without `await`, so its
rejection never reaches the control flow.  In the concrete environment
below the primary credential fails verification with the
untrusted-issuer error, yet the request still succeeds and returns a
profile (with the failed link merely dropped by the best-effort
collection pass). -/
theorem c2_primary_verification_failure_not_fatal :
    verifyCredential envUntrusted.oracle (twitterCred "briefboards")
        (jsSplitComma envUntrusted.trustedAttesterUrisRaw) "did:kilt:alice"
      = .error .untrustedIssuer
    ∧ getProfile envUntrusted dtoTwitter = some ⟨[]⟩ := ⟨rfl, rfl⟩

/-- C4: `fetchCredentials` fails with the upstream error on a
non-success transport status, fails with the malformed-data error
whenever the parsed payload is not a well-formed non-empty collection
in which every element carries a schema identifier, a claim mapping and
proof material, and any collection it returns consists exclusively of
elements carrying all of those. -/
theorem c4_fetch_validates_payload (response : FetchResponse) :
    (response.ok = false → fetchCredentials response = .error (.upstream response.status))
  ∧ (response.ok = true → isPublishedCollection response.body = false →
      fetchCredentials response = .error .malformedData)
  ∧ (∀ out, fetchCredentials response = .ok out →
      ∃ items, out = .arr items ∧ items ≠ []
        ∧ ∀ item ∈ items,
            item.truthy = true
            ∧ (item.getField "credential").truthy = true
            ∧ (((item.getField "credential").getField "claim").getField "cTypeHash").isStr = true
            ∧ (((item.getField "credential").getField "claim").getField "contents").isObj = true
            ∧ (((item.getField "credential").getField "claim").getField "owner").isStr = true
            ∧ ((item.getField "credential").getField "rootHash").isStr = true
            ∧ ((item.getField "credential").getField "claimHashes").isArr = true) := by
  refine ⟨fun hok => by simp [fetchCredentials, hok], fun hok hbad => by
    simp [fetchCredentials, hok, hbad], fun out hout => ?_⟩
  unfold fetchCredentials at hout
  by_cases hok : response.ok
  · by_cases hcoll : isPublishedCollection response.body
    · simp [hok, hcoll] at hout
      subst hout
      cases hbody : response.body with
      | arr items =>
        rw [hbody] at hcoll
        unfold isPublishedCollection at hcoll
        simp only [Bool.and_eq_true, List.all_eq_true] at hcoll
        refine ⟨items, rfl, by simpa using hcoll.1, fun item hitem => ?_⟩
        have h := hcoll.2 item hitem
        unfold isICredential at h
        simp only [Bool.and_eq_true, and_assoc] at h
        obtain ⟨t1, t2, p1, p2, p3, p4, p5⟩ := h
        exact ⟨t1, t2, p1, p2, p3, p4, p5⟩
      | null => rw [hbody] at hcoll; simp [isPublishedCollection] at hcoll
      | bool b => rw [hbody] at hcoll; simp [isPublishedCollection] at hcoll
      | num n => rw [hbody] at hcoll; simp [isPublishedCollection] at hcoll
      | str s => rw [hbody] at hcoll; simp [isPublishedCollection] at hcoll
      | obj fields => rw [hbody] at hcoll; simp [isPublishedCollection] at hcoll
    · simp [hok, hcoll] at hout
  · simp [hok] at hout

/-- Witness for C4 at a concrete failing response: a 503 status maps to
the upstream error. -/
theorem c4_witness :
    fetchCredentials ⟨false, 503, .null⟩ = .error (.upstream 503) :=
  (c4_fetch_validates_payload ⟨false, 503, .null⟩).1 rfl

/-- C5: `verifyCredential` performs exactly the four checks in order,
short-circuiting on the first failure — schema resolution, then
authenticity/revocation, then exact issuer membership in the allow-list,
then subject binding — and succeeds exactly when all four pass, in which
case it returns the very envelope it was given (it is a pure function of
its inputs and the trust-chain oracle). -/
theorem c5_verify_four_checks_in_order (oracle : TrustOracle) (cv : CredentialV1)
    (trusted : List String) (did : String) :
    (verifyCredential oracle cv trusted did = .error .unsupportedSchema
      ↔ oracle.ctypeExists cv.credential.claim.cTypeHash = false)
  ∧ (verifyCredential oracle cv trusted did = .error .invalidSignature
      ↔ oracle.ctypeExists cv.credential.claim.cTypeHash = true
        ∧ oracle.verifyResult cv.credential = none)
  ∧ (verifyCredential oracle cv trusted did = .error .revoked
      ↔ ∃ attester, oracle.ctypeExists cv.credential.claim.cTypeHash = true
        ∧ oracle.verifyResult cv.credential = some (true, attester))
  ∧ (verifyCredential oracle cv trusted did = .error .untrustedIssuer
      ↔ ∃ attester, oracle.ctypeExists cv.credential.claim.cTypeHash = true
        ∧ oracle.verifyResult cv.credential = some (false, attester)
        ∧ attester ∉ trusted)
  ∧ (verifyCredential oracle cv trusted did = .error .subjectMismatch
      ↔ ∃ attester, oracle.ctypeExists cv.credential.claim.cTypeHash = true
        ∧ oracle.verifyResult cv.credential = some (false, attester)
        ∧ attester ∈ trusted
        ∧ oracle.sameSubject cv.credential.claim.owner did = false)
  ∧ (∀ out, verifyCredential oracle cv trusted did = .ok out
      ↔ out = cv
        ∧ ∃ attester, oracle.ctypeExists cv.credential.claim.cTypeHash = true
          ∧ oracle.verifyResult cv.credential = some (false, attester)
          ∧ attester ∈ trusted
          ∧ oracle.sameSubject cv.credential.claim.owner did = true) := by
  cases h1 : oracle.ctypeExists cv.credential.claim.cTypeHash with
  | false => simp [verifyCredential, h1]
  | true =>
    cases h2 : oracle.verifyResult cv.credential with
    | none => simp [verifyCredential, h1, h2]
    | some pr =>
      obtain ⟨revoked, attester⟩ := pr
      cases revoked with
      | true => simp [verifyCredential, h1, h2]
      | false =>
        by_cases h3 : attester ∈ trusted
        · cases h4 : oracle.sameSubject cv.credential.claim.owner did with
          | false =>
            simp [verifyCredential, h1, h2, h3, h4]
          | true =>
            simp only [verifyCredential, h1, h2, h3, h4]
            simp [h3]
            exact fun out => eq_comm
        · simp [verifyCredential, h1, h2, h3]

end Id3

namespace Id3

/-- A comma split of a character list always produces at least one
group. -/
theorem splitCommaList_ne_nil (cs : List Char) : splitCommaList cs ≠ [] := by
  induction cs with
  | nil => simp [splitCommaList]
  | cons c rest ih =>
    simp only [splitCommaList]
    split
    · simp
    · match h : splitCommaList rest with
      | [] => simp
      | g :: gs => simp

/-- JavaScript's `s.split(',')` never yields an empty array, so the
`!trustedAttesterUris.length` guard on line 208 can never fire. -/
theorem jsSplitComma_ne_nil (s : String) : jsSplitComma s ≠ [] := by
  simpa [jsSplitComma] using splitCommaList_ne_nil s.data

/-- The no-trusted-attesters throw of line 209 is unreachable for every
environment and request. -/
theorem getProfileAttempt_ne_noTrustedAttesters (env : Env) (dto : ProfileDto) :
    getProfileAttempt env dto ≠ .error .noTrustedAttesters := by
  have hni : (jsSplitComma env.trustedAttesterUrisRaw).isEmpty = false := by
    cases hsc : jsSplitComma env.trustedAttesterUrisRaw with
    | nil => exact absurd hsc (jsSplitComma_ne_nil _)
    | cons a l => rfl
  intro h
  unfold getProfileAttempt at h
  simp only [hni] at h
  repeat' split at h
  all_goals simp_all

/-- C9: with `TRUSTED_ATTESTER_URIS` absent or empty (the configuration
default is the empty string), splitting on commas yields `[""]`, so the
request never fails with the no-trusted-attesters configuration error,
and the allow-list passed downstream is `[""]`, which matches no
non-empty attester URI. -/
theorem c9_empty_trusted_config (env : Env)
    (hraw : env.trustedAttesterUrisRaw = "") :
    jsSplitComma env.trustedAttesterUrisRaw = [""]
    ∧ (∀ dto, getProfileAttempt env dto ≠ .error .noTrustedAttesters)
    ∧ (∀ uri, uri ≠ "" → (jsSplitComma env.trustedAttesterUrisRaw).contains uri = false) := by
  refine ⟨by rw [hraw]; decide, fun dto => getProfileAttempt_ne_noTrustedAttesters env dto,
    fun uri huri => ?_⟩
  rw [hraw]
  have hs : jsSplitComma "" = [""] := by decide
  rw [hs]
  simp [huri]

/-- Witness for C9 at a concrete environment with empty configuration. -/
theorem c9_witness :
    getProfileAttempt { baseEnv with trustedAttesterUrisRaw := "" } dtoTwitter
      ≠ .error .noTrustedAttesters :=
  (c9_empty_trusted_config { baseEnv with trustedAttesterUrisRaw := "" } rfl).2.1 dtoTwitter

end Id3

namespace Id3

/-- Under hypotheses recording the answers of the collaborators up to
and including a successful credential fetch through the single matching
endpoint, the workflow reduces to its primary-match, collection
verification and projection stages. -/
theorem getProfileAttempt_afterFetch (env : Env) (dto : ProfileDto)
    (didUri : String) (rr : ResolutionResult) (document : DidDocument) (svc : Service)
    (credentials : List CredentialV1)
    (hvalid : (dto.web3Name.isEmpty || dto.username.isEmpty || dto.platformName.isEmpty) = false)
    (hplat : env.supportedPlatforms.any (fun desc => dto.platformName == desc.name) = true)
    (hdid : env.didUriFor dto.web3Name = .ok didUri)
    (hne : didUri.isEmpty = false)
    (hres : env.resolve didUri = some rr)
    (hdoc : rr.document = some document)
    (hsvc : (document.service.getD []).filter
        (fun service => service.type.contains kiltPublishedCredentialCollectionV1Type) = [svc])
    (hfetch : env.fetch (svc.serviceEndpoint.headD "") = .ok credentials) :
    getProfileAttempt env dto =
      match env.supportedPlatforms.find? (fun desc => desc.name == dto.platformName) with
      | none => .error .registryCrash
      | some platformDesc =>
        match credentials.find? (primaryPred platformDesc dto.username) with
        | none => .error .noMatch
        | some _ =>
          match extractProfile env.supportedPlatforms
              (verifySocialCredentials env.oracle
                (credentials.filter (supportedPred env.supportedPlatforms))
                (jsSplitComma env.trustedAttesterUrisRaw) didUri) with
          | none => .error .extractCrash
          | some profile => .ok profile := by
  have hni : (jsSplitComma env.trustedAttesterUrisRaw).isEmpty = false := by
    cases hsc : jsSplitComma env.trustedAttesterUrisRaw with
    | nil => exact absurd hsc (jsSplitComma_ne_nil _)
    | cons a l => rfl
  have hreg : env.supportedPlatforms.isEmpty = false := by
    cases hregs : env.supportedPlatforms with
    | nil => rw [hregs] at hplat; simp at hplat
    | cons a l => rfl
  unfold getProfileAttempt
  simp only [hvalid, hni, hreg, hplat, Bool.not_true, Bool.false_eq_true, if_false,
    hdid, hne, hres, hdoc, hsvc, hfetch, List.isEmpty_cons, List.length_cons,
    List.length_nil, List.headD_cons, gt_iff_lt, lt_self_iff_false]

end Id3

namespace Id3

/-- C3: once the workflow reaches the endpoint-location step, the
document's service endpoints are filtered by the credential-publication
type tag; zero matches fails the request with the not-found error and
two or more matches fail it with the conflict error, in both cases for
every possible fetch collaborator — i.e. before and independently of any
endpoint fetch. -/
theorem c3_endpoint_count_policy (env : Env) (dto : ProfileDto)
    (didUri : String) (rr : ResolutionResult) (document : DidDocument)
    (hvalid : (dto.web3Name.isEmpty || dto.username.isEmpty || dto.platformName.isEmpty) = false)
    (hplat : env.supportedPlatforms.any (fun desc => dto.platformName == desc.name) = true)
    (hdid : env.didUriFor dto.web3Name = .ok didUri)
    (hne : didUri.isEmpty = false)
    (hres : env.resolve didUri = some rr)
    (hdoc : rr.document = some document) :
    ((document.service.getD []).filter
        (fun service => service.type.contains kiltPublishedCredentialCollectionV1Type) = [] →
      ∀ fetchOracle, getProfileAttempt { env with fetch := fetchOracle } dto
        = .error .endpointNotFound)
    ∧ (2 ≤ ((document.service.getD []).filter
        (fun service => service.type.contains kiltPublishedCredentialCollectionV1Type)).length →
      ∀ fetchOracle, getProfileAttempt { env with fetch := fetchOracle } dto
        = .error .endpointConflict) := by
  have hni : (jsSplitComma env.trustedAttesterUrisRaw).isEmpty = false := by
    cases hsc : jsSplitComma env.trustedAttesterUrisRaw with
    | nil => exact absurd hsc (jsSplitComma_ne_nil _)
    | cons a l => rfl
  have hreg : env.supportedPlatforms.isEmpty = false := by
    cases hregs : env.supportedPlatforms with
    | nil => rw [hregs] at hplat; simp at hplat
    | cons a l => rfl
  constructor
  · intro hzero fetchOracle
    unfold getProfileAttempt
    simp only [hvalid, hni, hreg, hplat, Bool.not_true, Bool.false_eq_true, if_false,
      hdid, hne, hres, hdoc, hzero, List.isEmpty_nil, if_true]
  · intro htwo fetchOracle
    have hnonempty : ((document.service.getD []).filter
        (fun service => service.type.contains kiltPublishedCredentialCollectionV1Type)).isEmpty
          = false := by
      cases hc : (document.service.getD []).filter
          (fun service => service.type.contains kiltPublishedCredentialCollectionV1Type) with
      | nil => rw [hc] at htwo; simp at htwo
      | cons a l => rfl
    have hgt : 1 < ((document.service.getD []).filter
        (fun service => service.type.contains kiltPublishedCredentialCollectionV1Type)).length :=
      htwo
    unfold getProfileAttempt
    simp only [hvalid, hni, hreg, hplat, Bool.not_true, Bool.false_eq_true, if_false,
      hdid, hne, hres, hdoc, hnonempty, gt_iff_lt, hgt, if_true]

/-- Environment whose DID document exposes no service endpoints. -/
def envNoEndpoints : Env := { baseEnv with resolve := fun _ => some ⟨some ⟨some []⟩⟩ }

/-- Witness for C3 at a concrete document with zero matching endpoints. -/
theorem c3_witness :
    getProfileAttempt { envNoEndpoints with fetch := baseEnv.fetch } dtoTwitter
      = .error .endpointNotFound :=
  (c3_endpoint_count_policy envNoEndpoints dtoTwitter "did:kilt:alice"
    ⟨some ⟨some []⟩⟩ ⟨some []⟩ rfl rfl rfl rfl rfl rfl).1 rfl baseEnv.fetch

end Id3

namespace Id3

/-- C7: the primary match is searched with the find predicate of lines
259-262, which is equivalent to requiring exactly that the envelope's
schema identifier equals the requested platform descriptor's identifier
and that its claim value under the descriptor's contents key equals the
requested username (the additional `in` test is subsumed by the value
equality); when no envelope of the fetched collection satisfies these
two conditions the workflow fails with the no-match error, and any
returned match does satisfy both. -/
theorem c7_primary_match_rule (env : Env) (dto : ProfileDto)
    (didUri : String) (rr : ResolutionResult) (document : DidDocument) (svc : Service)
    (credentials : List CredentialV1) (platformDesc : PlatformDesc)
    (hvalid : (dto.web3Name.isEmpty || dto.username.isEmpty || dto.platformName.isEmpty) = false)
    (hplat : env.supportedPlatforms.any (fun desc => dto.platformName == desc.name) = true)
    (hdid : env.didUriFor dto.web3Name = .ok didUri)
    (hne : didUri.isEmpty = false)
    (hres : env.resolve didUri = some rr)
    (hdoc : rr.document = some document)
    (hsvc : (document.service.getD []).filter
        (fun service => service.type.contains kiltPublishedCredentialCollectionV1Type) = [svc])
    (hfetch : env.fetch (svc.serviceEndpoint.headD "") = .ok credentials)
    (hfind : env.supportedPlatforms.find? (fun desc => desc.name == dto.platformName)
        = some platformDesc) :
    (∀ cv, primaryPred platformDesc dto.username cv = true
       ↔ cv.credential.claim.cTypeHash = platformDesc.cTypeHash
         ∧ cv.credential.claim.contents.lookup platformDesc.contentsKey = some dto.username)
    ∧ ((∀ cv ∈ credentials, ¬(cv.credential.claim.cTypeHash = platformDesc.cTypeHash
           ∧ cv.credential.claim.contents.lookup platformDesc.contentsKey = some dto.username)) →
        getProfileAttempt env dto = .error .noMatch)
    ∧ (∀ m, credentials.find? (primaryPred platformDesc dto.username) = some m →
        m.credential.claim.cTypeHash = platformDesc.cTypeHash
        ∧ m.credential.claim.contents.lookup platformDesc.contentsKey = some dto.username) := by
  have hiff : ∀ cv, primaryPred platformDesc dto.username cv = true
      ↔ cv.credential.claim.cTypeHash = platformDesc.cTypeHash
        ∧ cv.credential.claim.contents.lookup platformDesc.contentsKey = some dto.username := by
    intro cv
    unfold primaryPred
    simp only [Bool.and_eq_true, beq_iff_eq]
    constructor
    · rintro ⟨⟨h1, _⟩, h3⟩
      exact ⟨h1, h3⟩
    · rintro ⟨h1, h3⟩
      exact ⟨⟨h1, by simp [h3]⟩, h3⟩
  refine ⟨hiff, fun hnone => ?_, fun m hm => hiff m |>.mp (List.find?_some hm)⟩
  have hfn : credentials.find? (primaryPred platformDesc dto.username) = none :=
    List.find?_eq_none.mpr (fun cv hcv hpred => hnone cv hcv ((hiff cv).mp hpred))
  rw [getProfileAttempt_afterFetch env dto didUri rr document svc credentials
    hvalid hplat hdid hne hres hdoc hsvc hfetch, hfind]
  simp only [hfn]

/-- Witness for C7: in an environment whose fetched collection holds only
a credential for a different username, the request fails with the
no-match error. -/
theorem c7_witness :
    getProfileAttempt { baseEnv with fetch := fun _ => .ok [twitterCred "someoneelse"] }
      dtoTwitter = .error .noMatch :=
  (c7_primary_match_rule { baseEnv with fetch := fun _ => .ok [twitterCred "someoneelse"] }
      dtoTwitter "did:kilt:alice" ⟨some sampleDoc⟩ sampleDoc sampleService
      [twitterCred "someoneelse"] twitterDesc
      rfl rfl rfl rfl rfl rfl rfl rfl rfl).2.1 (by decide)

/-- C8: the workflow is a deterministic function of the request and the
collaborator answers: two environments whose configuration, registry,
identity resolution, document resolution, fetch and trust-chain answers
agree pointwise produce the same outcome for the same request, hence
profiles with identical key sets and identical rendered URL values. -/
theorem c8_deterministic_in_collaborators (env₁ env₂ : Env) (dto : ProfileDto)
    (hraw : env₁.trustedAttesterUrisRaw = env₂.trustedAttesterUrisRaw)
    (hregs : env₁.supportedPlatforms = env₂.supportedPlatforms)
    (hdid : ∀ n, env₁.didUriFor n = env₂.didUriFor n)
    (hres : ∀ d, env₁.resolve d = env₂.resolve d)
    (hfetch : ∀ u, env₁.fetch u = env₂.fetch u)
    (hct : ∀ h, env₁.oracle.ctypeExists h = env₂.oracle.ctypeExists h)
    (hvr : ∀ c, env₁.oracle.verifyResult c = env₂.oracle.verifyResult c)
    (hss : ∀ a b, env₁.oracle.sameSubject a b = env₂.oracle.sameSubject a b) :
    getProfile env₁ dto = getProfile env₂ dto
    ∧ (getProfile env₁ dto).map (fun p => p.links.map Prod.fst)
        = (getProfile env₂ dto).map (fun p => p.links.map Prod.fst)
    ∧ (getProfile env₁ dto).map Profile.links
        = (getProfile env₂ dto).map Profile.links := by
  have henv : env₁ = env₂ := by
    obtain ⟨r₁, p₁, d₁, q₁, f₁, o₁⟩ := env₁
    obtain ⟨r₂, p₂, d₂, q₂, f₂, o₂⟩ := env₂
    obtain ⟨c₁, v₁, s₁⟩ := o₁
    obtain ⟨c₂, v₂, s₂⟩ := o₂
    simp only [Env.mk.injEq, TrustOracle.mk.injEq]
    exact ⟨hraw, hregs, funext hdid, funext hres, funext hfetch,
      funext hct, funext hvr, funext fun a => funext (hss a)⟩
  rw [henv]
  exact ⟨rfl, rfl, rfl⟩

/-- An environment extensionally identical to `baseEnv` but built from a
syntactically different fetch closure. -/
def baseEnvCopy : Env := { baseEnv with fetch := fun u => baseEnv.fetch u }

/-- Witness for C8: the base environment and its extensional copy give
the same profile for the example request. -/
theorem c8_witness : getProfile baseEnv dtoTwitter = getProfile baseEnvCopy dtoTwitter :=
  (c8_deterministic_in_collaborators baseEnv baseEnvCopy dtoTwitter rfl rfl
    (fun _ => rfl) (fun _ => rfl) (fun _ => rfl) (fun _ => rfl) (fun _ => rfl)
    (fun _ _ => rfl)).1

end Id3

namespace Id3

/-- On success `verifyCredential` returns exactly the envelope it was
given. -/
theorem verifyCredential_ok_eq (oracle : TrustOracle) (cv : CredentialV1)
    (trusted : List String) (did : String) (out : CredentialV1)
    (h : verifyCredential oracle cv trusted did = .ok out) : out = cv := by
  simp only [verifyCredential] at h
  repeat' split at h
  all_goals simp_all

/-- The best-effort collection pass keeps exactly the envelopes that
pass verification, in order: a failing envelope removes only itself. -/
theorem verifySocialCredentials_eq_filter (oracle : TrustOracle)
    (creds : List CredentialV1) (trusted : List String) (did : String) :
    verifySocialCredentials oracle creds trusted did
      = creds.filter
          (fun cv => (verifyCredential oracle cv trusted did).toOption.isSome) := by
  induction creds with
  | nil => rfl
  | cons c t ih =>
    unfold verifySocialCredentials at ih ⊢
    simp only [List.filterMap_cons, List.filter_cons]
    cases h : verifyCredential oracle c trusted did with
    | error e => simpa [h, Except.toOption] using ih
    | ok out =>
      have hout := verifyCredential_ok_eq oracle c trusted did out h
      subst hout
      simpa [h, Except.toOption] using ih

/-- The supported-platform filter predicate holds exactly when the
registry lookup that `extractProfile` performs succeeds. -/
theorem supportedPred_iff_find (registry : List PlatformDesc) (cv : CredentialV1) :
    supportedPred registry cv = true
      ↔ (registry.find?
          (fun desc => cv.credential.claim.cTypeHash == desc.cTypeHash)).isSome = true := by
  rw [List.find?_isSome]
  unfold supportedPred
  rw [List.any_eq_true]

/-- The `extractProfile` fold succeeds from any starting record exactly
when every credential's schema hash has a registry descriptor. -/
theorem extractFold_isSome_iff (registry : List PlatformDesc) :
    ∀ (creds : List CredentialV1) (links : List (String × String)),
    (extractFold registry creds links).isSome = true
      ↔ ∀ cv ∈ creds,
          (registry.find?
            (fun desc => cv.credential.claim.cTypeHash == desc.cTypeHash)).isSome = true := by
  intro creds
  induction creds with
  | nil => intro links; simp [extractFold]
  | cons c t ih =>
    intro links
    cases hf : registry.find? (fun desc => c.credential.claim.cTypeHash == desc.cTypeHash) with
    | none =>
      have hl : extractFold registry (c :: t) links = none := by
        simp [extractFold, List.foldlM_cons, extractStep, hf]
      rw [hl]
      simp only [Option.isSome_none, Bool.false_eq_true, false_iff, not_forall]
      refine ⟨c, List.mem_cons_self c t, ?_⟩
      rw [hf]
      simp
    | some desc =>
      have hl : extractFold registry (c :: t) links
          = extractFold registry t (setLink links desc.name (renderLink desc c.credential)) := by
        simp [extractFold, List.foldlM_cons, extractStep, hf]
      rw [hl, ih]
      constructor
      · intro h cv hcv
        rcases List.mem_cons.mp hcv with hcv | hcv
        · subst hcv; rw [hf]; rfl
        · exact h cv hcv
      · intro h cv hcv
        exact h cv (List.mem_cons_of_mem _ hcv)

/-- `extractProfile` succeeds exactly when every input credential's
schema hash appears in the registry (C10's totality boundary). -/
theorem extractProfile_isSome_iff (registry : List PlatformDesc)
    (creds : List CredentialV1) :
    (extractProfile registry creds).isSome = true
      ↔ ∀ cv ∈ creds,
          (registry.find?
            (fun desc => cv.credential.claim.cTypeHash == desc.cTypeHash)).isSome = true := by
  unfold extractProfile
  rw [Option.isSome_map']
  exact extractFold_isSome_iff registry creds []

/-- Projection after the best-effort pass over pre-filtered supported
credentials can never hit the missing-descriptor branch. -/
theorem extractProfile_verifySocial_ne_none (registry : List PlatformDesc)
    (oracle : TrustOracle) (creds : List CredentialV1)
    (trusted : List String) (did : String) :
    extractProfile registry
      (verifySocialCredentials oracle (creds.filter (supportedPred registry)) trusted did)
      ≠ none := by
  intro hnone
  have hsome : (extractProfile registry
      (verifySocialCredentials oracle (creds.filter (supportedPred registry)) trusted did)).isSome
        = true := by
    rw [extractProfile_isSome_iff]
    intro cv hcv
    rw [verifySocialCredentials_eq_filter] at hcv
    have hmem := List.mem_filter.mp (List.mem_filter.mp hcv).1
    exact (supportedPred_iff_find registry cv).mp hmem.2
  rw [hnone] at hsome
  simp at hsome

/-- The extract-crash outcome is unreachable in the workflow: the
collection handed to `extractProfile` is always pre-filtered to
supported schema hashes. -/
theorem getProfileAttempt_ne_extractCrash (env : Env) (dto : ProfileDto) :
    getProfileAttempt env dto ≠ .error .extractCrash := by
  intro h
  simp only [getProfileAttempt] at h
  repeat' split at h
  all_goals simp_all [extractProfile_verifySocial_ne_none]

end Id3

namespace Id3

/-- Assigning to a key that is not yet present appends the new entry. -/
theorem setLink_fresh (links : List (String × String)) (key val : String)
    (h : links.any (fun kv => kv.1 == key) = false) :
    setLink links key val = links ++ [(key, val)] := by
  simp [setLink, h]

/-- After a JS property assignment `links[key] = val`, reading `key`
yields `val` whether the key was fresh or overwritten. -/
theorem lookup_setLink (key val : String) : ∀ links : List (String × String),
    (setLink links key val).lookup key = some val := by
  intro links
  induction links with
  | nil => simp [setLink]
  | cons kv t ih =>
    obtain ⟨k, b⟩ := kv
    by_cases hk : k = key
    · subst hk
      have hany : (((k, b) :: t).any (fun x => x.1 == k)) = true := by simp
      simp [setLink, hany, List.lookup]
    · have hkb : ((k, b).1 == key) = false := by simpa using hk
      cases hany : (t.any (fun x => x.1 == key)) with
      | true =>
        have hany' : (((k, b) :: t).any (fun x => x.1 == key)) = true := by
          simp [List.any_cons, hany]
        have iht : (t.map (fun x => if x.1 == key then (key, val) else x)).lookup key
            = some val := by
          have h0 := ih
          simp only [setLink, hany, if_true] at h0
          exact h0
        have hkey : (key == k) = false := by simpa using Ne.symm hk
        simp only [setLink, hany', if_true, List.map_cons, hkb, Bool.false_eq_true,
          if_false, List.lookup_cons, hkey]
        exact iht
      | false =>
        have hany' : (((k, b) :: t).any (fun x => x.1 == key)) = false := by
          simp [List.any_cons, hany, hkb]
        have iht : (t ++ [(key, val)]).lookup key = some val := by
          have h0 := ih
          simp only [setLink, hany, Bool.false_eq_true, if_false] at h0
          exact h0
        have hkey : (key == k) = false := by simpa using Ne.symm hk
        simp only [setLink, hany', Bool.false_eq_true, if_false, List.cons_append,
          List.lookup_cons, hkey]
        exact iht

/-- The registry descriptor name attached to a credential, when its
schema hash is supported. -/
def nameOf (registry : List PlatformDesc) (credentialV1 : CredentialV1) : Option String :=
  (registry.find?
    (fun desc => credentialV1.credential.claim.cTypeHash == desc.cTypeHash)).map
    PlatformDesc.name

/-- A filterMap whose function succeeds on every element preserves the
length. -/
theorem length_filterMap_of_isSome {α β : Type} (f : α → Option β) :
    ∀ l : List α, (∀ x ∈ l, (f x).isSome = true) → (l.filterMap f).length = l.length := by
  intro l
  induction l with
  | nil => intro _; rfl
  | cons a t ih =>
    intro h
    have ha := h a (List.mem_cons_self a t)
    cases hfa : f a with
    | none => rw [hfa] at ha; simp at ha
    | some b =>
      rw [List.filterMap_cons, hfa]
      simp only [List.length_cons]
      rw [ih (fun x hx => h x (List.mem_cons_of_mem _ hx))]

/-- A list splits into the elements satisfying a predicate and those
falsifying it. -/
theorem length_filter_partition {α : Type} (p : α → Bool) :
    ∀ l : List α, (l.filter p).length + (l.filter (fun x => !p x)).length = l.length := by
  intro l
  induction l with
  | nil => rfl
  | cons a t ih => by_cases h : p a <;> simp [List.filter_cons, h, ih] <;> omega

/-- The `extractProfile` fold over supported credentials with pairwise
distinct platform names, all fresh for the accumulator, succeeds and
appends exactly one link key per credential. -/
theorem extractFold_keys (registry : List PlatformDesc) :
    ∀ (creds : List CredentialV1) (links : List (String × String)),
    (∀ cv ∈ creds, (nameOf registry cv).isSome = true) →
    (creds.filterMap (nameOf registry)).Nodup →
    (∀ n ∈ creds.filterMap (nameOf registry), n ∉ links.map Prod.fst) →
    ∃ links', extractFold registry creds links = some links'
      ∧ links'.map Prod.fst = links.map Prod.fst ++ creds.filterMap (nameOf registry) := by
  intro creds
  induction creds with
  | nil => intro links _ _ _; exact ⟨links, rfl, by simp [extractFold]⟩
  | cons c t ih =>
    intro links hall hnodup hfresh
    cases hf : registry.find? (fun desc => c.credential.claim.cTypeHash == desc.cTypeHash) with
    | none =>
      have := hall c (List.mem_cons_self c t)
      rw [nameOf, hf] at this
      simp at this
    | some desc =>
      have hname : nameOf registry c = some desc.name := by rw [nameOf, hf]; rfl
      have hnames : (c :: t).filterMap (nameOf registry)
          = desc.name :: t.filterMap (nameOf registry) := by
        rw [List.filterMap_cons, hname]
      have hfreshc : desc.name ∉ links.map Prod.fst := by
        apply hfresh
        rw [hnames]
        exact List.mem_cons_self _ _
      have hany : links.any (fun kv => kv.1 == desc.name) = false := by
        cases ha : links.any (fun kv => kv.1 == desc.name) with
        | false => rfl
        | true =>
          obtain ⟨kv, hkv, heq⟩ := List.any_eq_true.mp ha
          rw [beq_iff_eq] at heq
          exact absurd (heq ▸ List.mem_map_of_mem Prod.fst hkv) hfreshc
      have hstep : extractStep registry links c
          = some (links ++ [(desc.name, renderLink desc c.credential)]) := by
        simp only [extractStep, hf]
        rw [setLink_fresh links desc.name _ hany]
      have hnodup' : (t.filterMap (nameOf registry)).Nodup := by
        rw [hnames] at hnodup
        exact hnodup.of_cons
      have hheadfresh : desc.name ∉ t.filterMap (nameOf registry) := by
        rw [hnames] at hnodup
        exact (List.nodup_cons.mp hnodup).1
      have hfresh' : ∀ n ∈ t.filterMap (nameOf registry),
          n ∉ (links ++ [(desc.name, renderLink desc c.credential)]).map Prod.fst := by
        intro n hn
        rw [List.map_append, List.mem_append]
        rintro (hin | hin)
        · exact hfresh n (by rw [hnames]; exact List.mem_cons_of_mem _ hn) hin
        · simp only [List.map_cons, List.map_nil, List.mem_singleton] at hin
          exact hheadfresh (hin ▸ hn)
      obtain ⟨links', h1, h2⟩ := ih (links ++ [(desc.name, renderLink desc c.credential)])
        (fun cv hcv => hall cv (List.mem_cons_of_mem _ hcv)) hnodup' hfresh'
      refine ⟨links', ?_, ?_⟩
      · rw [extractFold, List.foldlM_cons]
        show (extractStep registry links c).bind _ = some links'
        rw [hstep]
        exact h1
      · rw [h2, hnames, List.map_append]
        simp

end Id3

namespace Id3

/-- C10: `extractProfile` is total exactly on inputs whose schema
identifiers all appear in the registry; under the orchestrator's
call-site precondition (only supported-schema credentials are passed)
the failing branch is unreachable for every environment and request;
and when a later credential maps to the same platform as an earlier
one, the later credential's rendered link is the one readable under the
platform key (last writer wins). -/
theorem c10_extract_totality_unreachable_overwrite :
    (∀ (registry : List PlatformDesc) (creds : List CredentialV1),
      (extractProfile registry creds).isSome = true
        ↔ ∀ cv ∈ creds,
            (registry.find?
              (fun desc => cv.credential.claim.cTypeHash == desc.cTypeHash)).isSome = true)
    ∧ (∀ (env : Env) (dto : ProfileDto), getProfileAttempt env dto ≠ .error .extractCrash)
    ∧ (∀ (registry : List PlatformDesc) (creds : List CredentialV1) (cv : CredentialV1)
        (desc : PlatformDesc) (links : List (String × String)),
        registry.find? (fun d => cv.credential.claim.cTypeHash == d.cTypeHash) = some desc →
        extractFold registry (creds ++ [cv]) [] = some links →
        links.lookup desc.name = some (renderLink desc cv.credential)) := by
  refine ⟨extractProfile_isSome_iff, getProfileAttempt_ne_extractCrash, ?_⟩
  intro registry creds cv desc links hf hfold
  rw [extractFold, List.foldlM_append] at hfold
  cases hmid : extractFold registry creds [] with
  | none =>
    rw [extractFold] at hmid
    rw [hmid] at hfold
    exact Option.noConfusion hfold
  | some mid =>
    rw [extractFold] at hmid
    rw [hmid] at hfold
    have hstep : extractStep registry mid cv
        = some (setLink mid desc.name (renderLink desc cv.credential)) := by
      simp only [extractStep, hf]
    have hfold1 : extractStep registry mid cv
        >>= (fun b => List.foldlM (extractStep registry) b ([] : List CredentialV1))
        = some links := hfold
    rw [hstep] at hfold1
    have hlinks := Option.some.inj hfold1
    rw [← hlinks]
    exact lookup_setLink desc.name _ mid

/-- Witness for C10's last-writer-wins clause at two concrete Twitter
credentials: the second one's rendered link survives. -/
theorem c10_witness :
    ([("twitter", "https://twitter.com/second")] : List (String × String)).lookup
        twitterDesc.name
      = some (renderLink twitterDesc (twitterCred "second").credential) :=
  c10_extract_totality_unreachable_overwrite.2.2 [twitterDesc] [twitterCred "first"]
    (twitterCred "second") twitterDesc [("twitter", "https://twitter.com/second")]
    (by decide) (by decide)

end Id3

namespace Id3

/-- C6: when the fetched collection's supported-platform envelopes
number N with pairwise distinct platforms, exactly one of them fails
trust-chain verification, and the primary match exists and is among the
passing ones, the request still succeeds and the returned profile has
exactly N−1 links; moreover the collection pass keeps exactly the
passing envelopes, so a failing verification removes only its own
envelope and never fails the request. -/
theorem c6_partial_failure_tolerated (env : Env) (dto : ProfileDto)
    (didUri : String) (rr : ResolutionResult) (document : DidDocument) (svc : Service)
    (credentials : List CredentialV1) (platformDesc : PlatformDesc)
    (m : CredentialV1) (N : Nat)
    (hvalid : (dto.web3Name.isEmpty || dto.username.isEmpty || dto.platformName.isEmpty) = false)
    (hplat : env.supportedPlatforms.any (fun desc => dto.platformName == desc.name) = true)
    (hdid : env.didUriFor dto.web3Name = .ok didUri)
    (hne : didUri.isEmpty = false)
    (hres : env.resolve didUri = some rr)
    (hdoc : rr.document = some document)
    (hsvc : (document.service.getD []).filter
        (fun service => service.type.contains kiltPublishedCredentialCollectionV1Type) = [svc])
    (hfetch : env.fetch (svc.serviceEndpoint.headD "") = .ok credentials)
    (hfind : env.supportedPlatforms.find? (fun desc => desc.name == dto.platformName)
        = some platformDesc)
    (hmatch : credentials.find? (primaryPred platformDesc dto.username) = some m)
    (hN : (credentials.filter (supportedPred env.supportedPlatforms)).length = N)
    (hnodup : ((credentials.filter (supportedPred env.supportedPlatforms)).filterMap
        (nameOf env.supportedPlatforms)).Nodup)
    (hone : ((credentials.filter (supportedPred env.supportedPlatforms)).filter
        (fun cv => !(verifyCredential env.oracle cv
          (jsSplitComma env.trustedAttesterUrisRaw) didUri).toOption.isSome)).length = 1)
    (hmok : (verifyCredential env.oracle m
        (jsSplitComma env.trustedAttesterUrisRaw) didUri).toOption.isSome = true) :
    (getProfile env dto).map (fun p => p.links.length + 1) = some N
    ∧ verifySocialCredentials env.oracle
        (credentials.filter (supportedPred env.supportedPlatforms))
        (jsSplitComma env.trustedAttesterUrisRaw) didUri
      = (credentials.filter (supportedPred env.supportedPlatforms)).filter
          (fun cv => (verifyCredential env.oracle cv
            (jsSplitComma env.trustedAttesterUrisRaw) didUri).toOption.isSome) := by
  have heqf := verifySocialCredentials_eq_filter env.oracle
    (credentials.filter (supportedPred env.supportedPlatforms))
    (jsSplitComma env.trustedAttesterUrisRaw) didUri
  refine ⟨?_, heqf⟩
  have hsup : ∀ cv ∈ (credentials.filter (supportedPred env.supportedPlatforms)).filter
      (fun cv => (verifyCredential env.oracle cv
        (jsSplitComma env.trustedAttesterUrisRaw) didUri).toOption.isSome),
      (nameOf env.supportedPlatforms cv).isSome = true := by
    intro cv hcv
    have hmem := List.mem_filter.mp hcv
    have hmem2 := List.mem_filter.mp hmem.1
    rw [nameOf, Option.isSome_map']
    exact (supportedPred_iff_find env.supportedPlatforms cv).mp hmem2.2
  have hnodup2 : (((credentials.filter (supportedPred env.supportedPlatforms)).filter
      (fun cv => (verifyCredential env.oracle cv
        (jsSplitComma env.trustedAttesterUrisRaw) didUri).toOption.isSome)).filterMap
      (nameOf env.supportedPlatforms)).Nodup :=
    hnodup.sublist ((List.filter_sublist _).filterMap (nameOf env.supportedPlatforms))
  obtain ⟨links, hfold, hkeys⟩ := extractFold_keys env.supportedPlatforms _ [] hsup hnodup2
    (by simp)
  have hsvlen : ((credentials.filter (supportedPred env.supportedPlatforms)).filter
      (fun cv => (verifyCredential env.oracle cv
        (jsSplitComma env.trustedAttesterUrisRaw) didUri).toOption.isSome)).length + 1 = N := by
    have hpart := length_filter_partition
      (fun cv => (verifyCredential env.oracle cv
        (jsSplitComma env.trustedAttesterUrisRaw) didUri).toOption.isSome)
      (credentials.filter (supportedPred env.supportedPlatforms))
    omega
  have hlen : links.length + 1 = N := by
    have hkl := congrArg List.length hkeys
    simp only [List.length_map, List.map_nil, List.nil_append] at hkl
    rw [length_filterMap_of_isSome (nameOf env.supportedPlatforms) _ hsup] at hkl
    omega
  have hextract : extractProfile env.supportedPlatforms
      (verifySocialCredentials env.oracle
        (credentials.filter (supportedPred env.supportedPlatforms))
        (jsSplitComma env.trustedAttesterUrisRaw) didUri) = some ⟨links⟩ := by
    rw [heqf, extractProfile, extractFold] at *
    rw [hfold]
    rfl
  rw [getProfile, getProfileAttempt_afterFetch env dto didUri rr document svc credentials
    hvalid hplat hdid hne hres hdoc hsvc hfetch, hfind]
  simp only [hmatch, hextract]
  show some (links.length + 1) = some N
  exact congrArg some hlen

end Id3

namespace Id3

/-- Trust oracle that finds the GitHub credential inauthentic and
accepts everything else. -/
def oracleGithubBad : TrustOracle :=
  ⟨fun _ => true,
   fun c => if c.claim.cTypeHash == "0xgithubhash" then none
            else some (false, "did:kilt:attester"),
   fun a b => a == b⟩

/-- Environment fetching one Twitter and one GitHub credential where
only the GitHub credential fails verification. -/
def envC6 : Env :=
  { baseEnv with
    fetch := fun _ => .ok [twitterCred "briefboards", githubCred "bob"]
    oracle := oracleGithubBad }

/-- Witness for C6 at N = 2: one of two supported envelopes fails
verification and the request still succeeds with exactly one link. -/
theorem c6_witness :
    (getProfile envC6 dtoTwitter).map (fun p => p.links.length + 1) = some 2 :=
  (c6_partial_failure_tolerated envC6 dtoTwitter "did:kilt:alice" ⟨some sampleDoc⟩
    sampleDoc sampleService [twitterCred "briefboards", githubCred "bob"] twitterDesc
    (twitterCred "briefboards") 2 rfl rfl rfl rfl rfl rfl rfl rfl rfl (by decide)
    (by decide) (by decide) (by decide) (by decide)).1

end Id3
